import Mathlib

/-!
Verification development for the Cloudflare Workers Sandbox REPL environment
(file rlm/environments/cloudflare_repl.py).

Shallow embedding of the in-sandbox execution script built by
_build_exec_script, of the host-side turn orchestration in
CloudflareREPL.execute_code, of the broker bridge and poller, and of the
state codec (base64 code transport, context literal embedding, persisted
state save and load).  Machine values are modelled at the JSON level:
a Python value is either a JSON-representable value, a non-serializable
value with an optional printable representation, or one of the injected
capability functions.
-/

namespace RLM

set_option autoImplicit false

/-- Characters that are awkward to write directly under the house style. -/
def squote : Char := Char.ofNat 39

def lbrace : Char := Char.ofNat 123

def rbrace : Char := Char.ofNat 125

def squoteStr : String := String.singleton squote

def lbraceStr : String := String.singleton lbrace

def rbraceStr : String := String.singleton rbrace

/-- JSON values, as stored in the persisted state file and exchanged with
the worker and the broker.  Numbers are restricted to integers; floating
point payloads are outside this model. -/
inductive Json where
  | null : Json
  | bool (b : Bool) : Json
  | num (n : Int) : Json
  | str (s : String) : Json
  | arr (xs : List Json) : Json
  | obj (fields : List (String × Json)) : Json

/-- A Python runtime value as seen by the execution script: either a value
on which json.dumps succeeds (and which round-trips through JSON), or a
non-serializable value whose repr may itself fail, or one of the injected
capability functions and dunder globals. -/
inductive PyVal where
  | jval (j : Json) : PyVal
  | nonser (r : Option String) : PyVal
  | cap (name : String) : PyVal

mutual

/-- Python repr of a JSON-loaded value (None, True, quoted strings, lists,
dicts).  String escaping inside repr is not modelled. -/
def jsonRepr : Json → String
  | Json.null => "None"
  | Json.bool true => "True"
  | Json.bool false => "False"
  | Json.num n => toString n
  | Json.str s => squoteStr ++ s ++ squoteStr
  | Json.arr xs => "[" ++ jsonReprList xs ++ "]"
  | Json.obj fs => lbraceStr ++ jsonReprObj fs ++ rbraceStr

def jsonReprList : List Json → String
  | [] => ""
  | [x] => jsonRepr x
  | x :: xs => jsonRepr x ++ ", " ++ jsonReprList xs

def jsonReprObj : List (String × Json) → String
  | [] => ""
  | [p] => squoteStr ++ p.1 ++ squoteStr ++ ": " ++ jsonRepr p.2
  | p :: ps => squoteStr ++ p.1 ++ squoteStr ++ ": " ++ jsonRepr p.2 ++ ", " ++ jsonReprObj ps

end

/-- Python type name of a JSON-loaded value, for the type-tag fallback. -/
def jsonTypeName : Json → String
  | Json.null => "NoneType"
  | Json.bool _ => "bool"
  | Json.num _ => "int"
  | Json.str _ => "str"
  | Json.arr _ => "list"
  | Json.obj _ => "dict"

/-- Python str() of a value (str returns the bare string, containers print
like their repr). -/
def pyStr : PyVal → String
  | PyVal.jval (Json.str s) => s
  | PyVal.jval j => jsonRepr j
  | PyVal.nonser r => r.getD "<object>"
  | PyVal.cap n => "<function " ++ n ++ ">"

/-- Python repr() of a value; none models repr itself raising. -/
def pyRepr : PyVal → Option String
  | PyVal.jval j => some (jsonRepr j)
  | PyVal.nonser r => r
  | PyVal.cap n => some ("<function " ++ n ++ ">")

/-- type(v).__name__ for the fallback tag in serialize_locals. -/
def pyTypeName : PyVal → String
  | PyVal.jval j => jsonTypeName j
  | PyVal.nonser _ => "object"
  | PyVal.cap _ => "function"

/-- The json.dumps serializability test performed by save_state: exactly
the JSON-representable values pass. -/
def jsonSerializable : PyVal → Bool
  | PyVal.jval _ => true
  | PyVal.nonser _ => false
  | PyVal.cap _ => false

/-- Python truthiness of a JSON value (used for the data.get checks). -/
def jsonTruthy : Json → Bool
  | Json.null => false
  | Json.bool b => b
  | Json.num n => !(n = 0)
  | Json.str s => !(s = "")
  | Json.arr xs => !xs.isEmpty
  | Json.obj fs => !fs.isEmpty

/-- k.startswith of the underscore prefix: the first character is an
underscore. -/
def pyUnderscore (k : String) : Bool :=
  k.data.head? = some '_'

/-! ### Python dictionaries

A Python dict is modelled as an association list in insertion order with
distinct keys; lookup takes the first (hence only) matching entry. -/

/-- The namespace / state dictionary of the execution script. -/
abbrev PyDict := List (String × PyVal)

/-- Keys of an association list are distinct (the Python dict invariant). -/
def NodupKeys {α : Type} (l : List (String × α)) : Prop :=
  (l.map Prod.fst).Nodup

instance {α : Type} (l : List (String × α)) : Decidable (NodupKeys l) := by
  unfold NodupKeys; infer_instance

/-- Python dict assignment d[k] = v: update the entry in place if the key
exists, otherwise append the new entry (insertion order semantics). -/
def dinsert {α : Type} (d : List (String × α)) (k : String) (v : α) :
    List (String × α) :=
  if (List.lookup k d).isSome then
    d.map (fun p => if p.1 = k then (k, v) else p)
  else
    d ++ [(k, v)]

/-- Python dict merge: the(**a, **b) display builds a dict from the items
of a updated with the items of b; entries in b override entries in a. -/
def pyDictMerge (a b : PyDict) : PyDict :=
  b.foldl (fun d p => dinsert d p.1 p.2) a

/-! ### The execution script (_build_exec_script)

The script loads persisted state, injects the capability globals, executes
the decoded code against the merged namespace, copies non-global
non-underscore bindings back on success, and re-persists state. -/

/-- The injected globals dictionary built by the script:
dunder entries plus the three capability functions. -/
def injectedGlobals : PyDict :=
  [("__builtins__", PyVal.cap "builtins"),
   ("__name__", PyVal.jval (Json.str "__main__")),
   ("llm_query", PyVal.cap "llm_query"),
   ("llm_query_batched", PyVal.cap "llm_query_batched"),
   ("FINAL_VAR", PyVal.cap "FINAL_VAR")]

/-- The merged execution namespace: combined = the (**_globals, **_locals)
display. -/
def combinedNamespace (locals : PyDict) : PyDict :=
  pyDictMerge injectedGlobals locals

/-- The guard of the copy-back loop: key not in _globals and not
underscore-prefixed. -/
def copyBackCond (k : String) : Bool :=
  (List.lookup k injectedGlobals).isNone && !pyUnderscore k

/-- The copy-back loop run after a successful exec: for every key of the
final combined namespace that is not an injected global and does not start
with an underscore, assign it into _locals. -/
def copyBack (locals combined : PyDict) : PyDict :=
  combined.foldl
    (fun d p => if copyBackCond p.1 then dinsert d p.1 p.2 else d)
    locals

/-- save_state: skip underscore keys; keep values passing the json.dumps
test as they are; otherwise fall back to the printable representation;
drop the entry if repr itself fails.  The result is a list of key/JSON
pairs, i.e. always a syntactically well-formed JSON object. -/
def save_state (state : PyDict) : List (String × Json) :=
  state.filterMap (fun p =>
    if pyUnderscore p.1 then none
    else
      match p.2 with
      | PyVal.jval j => some (p.1, j)
      | v =>
        match pyRepr v with
        | some r => some (p.1, Json.str r)
        | none => none)

/-- load_state: a missing or corrupt state file yields the empty state;
otherwise the JSON object read from the file becomes the new _locals, each
value a JSON value. -/
def load_state (file : Option (List (String × Json))) : PyDict :=
  match file with
  | none => []
  | some fs => fs.map (fun p => (p.1, PyVal.jval p.2))

/-- serialize_locals: underscore keys are skipped; every other entry is
rendered with repr, or with the type-name tag when repr fails. -/
def serialize_locals (state : PyDict) : List (String × String) :=
  state.filterMap (fun p =>
    if pyUnderscore p.1 then none
    else some (p.1, match pyRepr p.2 with
                    | some r => r
                    | none => "<" ++ pyTypeName p.2 ++ ">"))

/-- The Python str.strip() whitespace set (ASCII part). -/
def pyWs (c : Char) : Bool :=
  c = ' ' || c = '\t' || c = '\n' || c = '\r' || c = Char.ofNat 11 || c = Char.ofNat 12

/-- str.strip(): drop leading and trailing whitespace. -/
def pyStripWs (cs : List Char) : List Char :=
  ((cs.dropWhile pyWs).reverse.dropWhile pyWs).reverse

/-- FINAL_VAR helper: variable_name.strip().strip on quote characters. -/
def finalVarName (raw : String) : String :=
  let t := pyStripWs raw.data
  let stripSet : List Char := ['"', squote]
  String.mk (((t.dropWhile (fun c => c ∈ stripSet)).reverse.dropWhile
      (fun c => c ∈ stripSet)).reverse)

/-- The not-found marker returned by FINAL_VAR. -/
def finalVarNotFound (name : String) : String :=
  "Error: Variable " ++ squoteStr ++ name ++ squoteStr ++ " not found"

/-- FINAL_VAR: strip whitespace and quotes from the argument, then look
the name up in the _locals dictionary loaded at the start of the turn
(note: in the script FINAL_VAR closes over _locals, not over the combined
execution namespace). -/
def FINAL_VAR (locals : PyDict) (raw : String) : String :=
  let n := finalVarName raw
  match List.lookup n locals with
  | some v => pyStr v
  | none => finalVarNotFound n

/-- Outcome of the exec call on the decoded code: either it completes with
a final combined namespace, or it raises, leaving the combined namespace
in the state it had at the failure point; the traceback text is the
argument of raised. -/
inductive ExecOutcome where
  | ok (finalCombined : PyDict) : ExecOutcome
  | raised (tb : String) (namespaceAtFailure : PyDict) : ExecOutcome

/-- The JSON record printed by the script as the last stdout line. -/
structure ScriptRecord where
  stdout : String
  stderr : String
  locals : List (String × String)

/-- One run of the execution script after exec has been reached: given the
_locals loaded from the state file, what the executed code wrote to the
redirected stdout and stderr buffers, and the exec outcome, produce the
printed result record and the state file written by save_state.  On
success the copy-back loop runs before saving; on an exception the
traceback is appended to the stderr buffer, the copy-back loop is skipped
(it sits after exec inside the try block), and save_state persists the
unmodified _locals. -/
def runScriptTurn (locals : PyDict) (codeOut codeErr : String)
    (outcome : ExecOutcome) : ScriptRecord × List (String × Json) :=
  match outcome with
  | ExecOutcome.ok finalCombined =>
    let newLocals := copyBack locals finalCombined
    ({ stdout := codeOut, stderr := codeErr, locals := serialize_locals newLocals },
     save_state newLocals)
  | ExecOutcome.raised tb _ =>
    ({ stdout := codeOut, stderr := codeErr ++ tb, locals := serialize_locals locals },
     save_state locals)

/-- The namespace at the start of the next turn: _locals reloaded from the
saved state file, merged into the injected globals. -/
def nextTurnNamespace (saved : List (String × Json)) : PyDict :=
  combinedNamespace (load_state (some saved))

/-! ### Broker bridge and poller

The in-sandbox llm_query and llm_query_batched functions, the host-side
_handle_llm_request dispatch, and the mutex-guarded pending completion
list manipulated by execute_code and the poller. -/

/-- A chat completion recorded by the poller (rlm.core.types
RLMChatCompletion; only the response text matters to the claims). -/
structure RLMChatCompletion where
  response : String
  deriving DecidableEq

/-- The value returned by the model-call collaborator for one prompt
(rlm.core.comms_utils LMResponse shape used by _handle_llm_request). -/
structure LMResponse where
  success : Bool
  error : String
  chat_completion : RLMChatCompletion

/-- An LM request read from the broker pending queue. -/
inductive LMReq where
  | single (prompt : String) (model : Option String) : LMReq
  | batched (prompts : List String) (model : Option String) : LMReq
  | unknown : LMReq

/-- The model-call collaborator: prompt and model name to response. -/
abbrev LMHandler := String → Option String → LMResponse

/-- Modelled from the spec: send_lm_request lives in rlm.core.comms_utils,
which is not part of this source slice.  It dispatches one prompt to the
model-call collaborator at the handler address and returns its response. -/
def send_lm_request (handler : LMHandler) (prompt : String)
    (model : Option String) : LMResponse :=
  handler prompt model

/-- Modelled from the spec: send_lm_request_batched lives in
rlm.core.comms_utils, which is not part of this source slice.  Per spec
section 4.5, a batched dispatch maps an ordered list of prompts to the
order-preserving list of responses of the model-call collaborator. -/
def send_lm_request_batched (handler : LMHandler) (prompts : List String)
    (model : Option String) : List LMResponse :=
  prompts.map (fun p => handler p model)

/-- The payload _handle_llm_request posts back to the broker. -/
inductive HandlerReply where
  | errorRep (e : String) : HandlerReply
  | singleRep (text : String) : HandlerReply
  | batchedRep (texts : List String) : HandlerReply

/-- _handle_llm_request: dispatch one pending broker item by declared kind
to the model-call collaborator; on success append the completion(s) to the
pending list under the mutex and return the response payload; on failure
return the error payload without appending. -/
def handleLlmRequest (handler : LMHandler) (req : LMReq)
    (pending : List RLMChatCompletion) :
    HandlerReply × List RLMChatCompletion :=
  match req with
  | LMReq.single prompt model =>
    let response := send_lm_request handler prompt model
    if response.success then
      (HandlerReply.singleRep response.chat_completion.response,
       pending ++ [response.chat_completion])
    else
      (HandlerReply.errorRep response.error, pending)
  | LMReq.batched prompts model =>
    let responses := send_lm_request_batched handler prompts model
    let step := fun (acc : List String × List RLMChatCompletion) (r : LMResponse) =>
      if r.success then
        (acc.1 ++ [r.chat_completion.response], acc.2 ++ [r.chat_completion])
      else
        (acc.1 ++ ["Error: " ++ r.error], acc.2)
    let out := responses.foldl step ([], pending)
    (HandlerReply.batchedRep out.1, out.2)
  | LMReq.unknown => (HandlerReply.errorRep "Unknown request type", pending)

/-- The completions one handled request appends to the pending list. -/
def reqCompletions (handler : LMHandler) (req : LMReq) :
    List RLMChatCompletion :=
  (handleLlmRequest handler req []).2

/-- A stretch of poller activity: handle each pending broker item in turn,
threading the mutex-guarded pending completion list. -/
def pollWindow (handler : LMHandler) (reqs : List LMReq)
    (pending : List RLMChatCompletion) : List RLMChatCompletion :=
  reqs.foldl (fun p r => (handleLlmRequest handler r p).2) pending

/-- The clear performed by execute_code at the start of a turn, before
dispatching the script (pending_llm_calls.clear() under the lock). -/
def clearCalls (_ : List RLMChatCompletion) : List RLMChatCompletion := []

/-- The harvest performed by execute_code after remote execution returns:
one mutex-guarded copy-then-clear, returning the snapshot and the new
(empty) pending list. -/
def harvestCalls (pending : List RLMChatCompletion) :
    List RLMChatCompletion × List RLMChatCompletion :=
  (pending, [])

/-- The broker relays the payload posted to /respond back to the blocked
/enqueue call as its JSON body (spec section 6 broker protocol). -/
def brokerRelay (reply : HandlerReply) : Json :=
  match reply with
  | HandlerReply.errorRep e => Json.obj [("error", Json.str e)]
  | HandlerReply.singleRep t => Json.obj [("response", Json.str t)]
  | HandlerReply.batchedRep ts =>
    Json.obj [("responses", Json.arr (ts.map Json.str))]

/-- What the in-sandbox bridge observes from its requests.post to the
broker enqueue endpoint: either the request raised (network failure,
timeout) or a JSON body came back. -/
inductive BrokerPost where
  | transportFail (e : String) : BrokerPost
  | reply (data : Json) : BrokerPost

/-- data.get on a JSON body, as used by the bridge; none when the body is
not an object or lacks the key. -/
def jsonGet (data : Json) (key : String) : Option Json :=
  match data with
  | Json.obj fs => List.lookup key fs
  | _ => none

/-- Truthiness of data.get(key) in the bridge error checks. -/
def jsonGetTruthy (data : Json) (key : String) : Bool :=
  match jsonGet data key with
  | some v => jsonTruthy v
  | none => false

/-- In-sandbox llm_query: fail closed when BROKER_URL is None; report a
transport failure as an error string; report a broker-flagged error as an
error string; otherwise return the response field (an error string when it
is missing).  Any exception inside the try block, including attribute
errors on a non-object body, lands in the transport-failure branch. -/
def llm_query (brokerUrl : Option String) (post : BrokerPost) : Json :=
  match brokerUrl with
  | none => Json.str "Error: LLM broker not configured"
  | some _ =>
    match post with
    | BrokerPost.transportFail e => Json.str ("Error: LM query failed - " ++ e)
    | BrokerPost.reply data =>
      match data with
      | Json.obj _ =>
        if jsonGetTruthy data "error" then
          Json.str ("Error: " ++ pyStr (PyVal.jval ((jsonGet data "error").getD Json.null)))
        else
          (jsonGet data "response").getD (Json.str "Error: No response")
      | _ => Json.str "Error: LM query failed - AttributeError"

/-- In-sandbox llm_query_batched: identical contract over a list of
prompts; every failure branch returns one placeholder per input prompt;
the success branch returns the responses field of the body verbatim, with
a per-prompt placeholder list as the get default. -/
def llm_query_batched (brokerUrl : Option String) (prompts : List String)
    (post : BrokerPost) : Json :=
  match brokerUrl with
  | none =>
    Json.arr (List.replicate prompts.length (Json.str "Error: LLM broker not configured"))
  | some _ =>
    match post with
    | BrokerPost.transportFail e =>
      Json.arr (List.replicate prompts.length (Json.str ("Error: LM query failed - " ++ e)))
    | BrokerPost.reply data =>
      match data with
      | Json.obj _ =>
        if jsonGetTruthy data "error" then
          Json.arr (List.replicate prompts.length
            (Json.str ("Error: " ++ pyStr (PyVal.jval ((jsonGet data "error").getD Json.null)))))
        else
          (jsonGet data "responses").getD
            (Json.arr (List.replicate prompts.length (Json.str "Error: No response")))
      | _ =>
        Json.arr (List.replicate prompts.length
          (Json.str "Error: LM query failed - AttributeError"))

/-! ### Session configuration and poller startup -/

/-- The configuration slice of a CloudflareREPL session that governs the
broker machinery: broker_url (None or a string, possibly empty) and
lm_handler_address (None or a host/port pair). -/
structure SessionConfig where
  brokerUrl : Option String
  lmHandlerAddress : Option (String × Nat)

/-- Python truthiness of the broker_url attribute. -/
def truthyBrokerUrl (c : SessionConfig) : Bool :=
  match c.brokerUrl with
  | none => false
  | some s => !(s = "")

/-- setup() starts the poller thread exactly when broker_url is truthy and
lm_handler_address is set. -/
def pollerStarted (c : SessionConfig) : Bool :=
  truthyBrokerUrl c && c.lmHandlerAddress.isSome

/-- The BROKER_URL constant baked into the generated script by
_build_exec_script: the quoted url when broker_url is truthy, else None. -/
def scriptBrokerUrl (c : SessionConfig) : Option String :=
  match c.brokerUrl with
  | none => none
  | some s => if s = "" then none else some s

/-! ### json.loads for the result record

A small executable JSON reader used to model the json.loads call on the
last stdout line of the remote execution.  Numbers are restricted to
integer literals; a fractional or exponent part makes the parse fail, so
float-bearing lines sit outside the model. -/

/-- Whitespace skipping. -/
def skipWs (cs : List Char) : List Char :=
  cs.dropWhile (fun c => c = ' ' || c = '\n' || c = '\t' || c = '\r')

/-- Read a JSON string body after the opening quote. -/
def readJsonStr : List Char → Option (String × List Char)
  | [] => none
  | '"' :: rest => some ("", rest)
  | '\\' :: c :: rest =>
    let e : Option Char :=
      if c = '"' then some '"'
      else if c = '\\' then some '\\'
      else if c = '/' then some '/'
      else if c = 'n' then some '\n'
      else if c = 't' then some '\t'
      else if c = 'r' then some '\r'
      else none
    match e with
    | none => none
    | some ch =>
      match readJsonStr rest with
      | some (s, r) => some (String.singleton ch ++ s, r)
      | none => none
  | c :: rest =>
    match readJsonStr rest with
    | some (s, r) => some (String.singleton c ++ s, r)
    | none => none

/-- Read a run of decimal digits as a Nat (at least one digit). -/
def readDigits : List Char → Option (Nat × List Char)
  | cs =>
    let ds := cs.takeWhile Char.isDigit
    if ds.isEmpty then none
    else some (ds.foldl (fun n c => n * 10 + (c.toNat - 48)) 0, cs.drop ds.length)

/-- A number followed by a fraction or exponent marker is outside the
integer fragment this model covers. -/
def decimalTail (cs : List Char) : Bool :=
  match cs with
  | '.' :: _ => true
  | 'e' :: _ => true
  | 'E' :: _ => true
  | _ => false

mutual

/-- Read one JSON value. -/
def readJson : Nat → List Char → Option (Json × List Char)
  | 0, _ => none
  | Nat.succ fuel, cs =>
    match skipWs cs with
    | 'n' :: 'u' :: 'l' :: 'l' :: rest => some (Json.null, rest)
    | 't' :: 'r' :: 'u' :: 'e' :: rest => some (Json.bool true, rest)
    | 'f' :: 'a' :: 'l' :: 's' :: 'e' :: rest => some (Json.bool false, rest)
    | '"' :: rest =>
      match readJsonStr rest with
      | some (s, r) => some (Json.str s, r)
      | none => none
    | '[' :: rest =>
      (match skipWs rest with
       | ']' :: r2 => some (Json.arr [], r2)
       | other =>
         match readJsonArr fuel other with
         | some (xs, r2) => some (Json.arr xs, r2)
         | none => none)
    | '-' :: rest =>
      (match readDigits rest with
       | some (n, r2) =>
         if decimalTail r2 then none else some (Json.num (-(n : Int)), r2)
       | none => none)
    | c :: rest =>
      if c.isDigit then
        match readDigits (c :: rest) with
        | some (n, r2) =>
          if decimalTail r2 then none else some (Json.num (n : Int), r2)
        | none => none
      else if c = lbrace then
        match skipWs rest with
        | r3 =>
          if r3.head? = some rbrace then some (Json.obj [], r3.tail)
          else
            match readJsonObj fuel r3 with
            | some (fs, r2) => some (Json.obj fs, r2)
            | none => none
      else none
    | [] => none

/-- Read the elements of a non-empty JSON array, up to and including the
closing bracket. -/
def readJsonArr : Nat → List Char → Option (List Json × List Char)
  | 0, _ => none
  | Nat.succ fuel, cs =>
    match readJson fuel cs with
    | some (x, rest) =>
      (match skipWs rest with
       | ',' :: r2 =>
         match readJsonArr fuel r2 with
         | some (xs, r3) => some (x :: xs, r3)
         | none => none
       | ']' :: r2 => some ([x], r2)
       | _ => none)
    | none => none

/-- Read the fields of a non-empty JSON object, up to and including the
closing brace. -/
def readJsonObj : Nat → List Char → Option (List (String × Json) × List Char)
  | 0, _ => none
  | Nat.succ fuel, cs =>
    match skipWs cs with
    | '"' :: r1 =>
      (match readJsonStr r1 with
       | some (k, r2) =>
         (match skipWs r2 with
          | ':' :: r3 =>
            (match readJson fuel r3 with
             | some (v, r4) =>
               (match skipWs r4 with
                | ',' :: r5 =>
                  (match readJsonObj fuel r5 with
                   | some (fs, r6) => some ((k, v) :: fs, r6)
                   | none => none)
                | r5 =>
                  if r5.head? = some rbrace then some ([(k, v)], r5.tail)
                  else none)
             | none => none)
          | _ => none)
       | none => none)
    | _ => none

end

/-- json.loads on a whole string: one value, nothing but whitespace after
it. -/
def jsonParse (s : String) : Option Json :=
  match readJson (s.length + 1) s.data with
  | some (j, rest) => if skipWs rest = [] then some j else none
  | none => none

/-! ### execute_code result handling (Turn Orchestrator) -/

/-- What the /sandbox/exec HTTP round trip hands back to execute_code:
either the worker body with stdout/stderr fields, or the structured error
value _request substitutes for a raised transport exception (a dict with
only error and success keys, so both dict.get calls fall back to the empty
string). -/
inductive ExecResponse where
  | ok (stdout stderr : String) : ExecResponse
  | transportError (msg : String) : ExecResponse

/-- exec_result.get of the stdout field. -/
def execStdout : ExecResponse → String
  | ExecResponse.ok so _ => so
  | ExecResponse.transportError _ => ""

/-- exec_result.get of the stderr field. -/
def execStderr : ExecResponse → String
  | ExecResponse.ok _ se => se
  | ExecResponse.transportError _ => ""

/-- str.split on the newline character: list of segments, never empty. -/
def splitLines : List Char → List (List Char)
  | [] => [[]]
  | '\n' :: rest => [] :: splitLines rest
  | c :: rest =>
    match splitLines rest with
    | [] => [[c]]
    | l :: ls => (c :: l) :: ls

/-- stdout.strip().split on the newline character always yields at least
one element, and the code takes the last one (falling back to an empty
object literal on an impossible empty list). -/
def pyLastLine (s : String) : String :=
  let lines := splitLines (pyStripWs s.data)
  String.mk (lines.getLastD [lbrace, rbrace])

/-- The Python exceptions that can escape the result-parsing block of
execute_code (json.JSONDecodeError is the only one caught). -/
inductive PyErr where
  | attributeError : PyErr
  | typeError : PyErr
  deriving DecidableEq

/-- The Turn Result (rlm.core.types REPLResult).  The stdout and locals
fields hold whatever JSON values the record carried (the dataclass does
not enforce strings); execution_time, a wall-clock float, is not part of
the model. -/
structure REPLResult where
  stdout : Json
  stderr : String
  locals : Json
  rlm_calls : List RLMChatCompletion

/-- result.get on the parsed record: raises AttributeError when the parsed
value is not an object, otherwise returns the field or the default. -/
def resultGet (j : Json) (key : String) (deflt : Json) : Except PyErr Json :=
  match j with
  | Json.obj fs => Except.ok ((List.lookup key fs).getD deflt)
  | _ => Except.error PyErr.attributeError

/-- The concatenation of the parsed stderr field with the transport-level
stderr string: a TypeError when the field is not a string. -/
def pyStrConcat (j : Json) (s : String) : Except PyErr String :=
  match j with
  | Json.str t => Except.ok (t ++ s)
  | _ => Except.error PyErr.typeError

/-- The result-parsing tail of execute_code: take the captured stdout and
stderr of the remote exec call and the completions harvested for this
turn; parse the last stdout line as JSON; on parse failure return the raw
stdout and stderr, substituting the diagnostic note for an empty stderr;
on parse success read the record fields, which can raise for non-object
records or non-string stderr fields. -/
def executeCodeResult (resp : ExecResponse) (harvested : List RLMChatCompletion) :
    Except PyErr REPLResult :=
  let stdout := execStdout resp
  let stderr := execStderr resp
  match jsonParse (pyLastLine stdout) with
  | none =>
    Except.ok
      { stdout := Json.str stdout,
        stderr := if stderr = "" then "Failed to parse execution result" else stderr,
        locals := Json.obj [],
        rlm_calls := harvested }
  | some record =>
    match resultGet record "stdout" (Json.str "") with
    | Except.error e => Except.error e
    | Except.ok so =>
      match resultGet record "stderr" (Json.str "") with
      | Except.error e => Except.error e
      | Except.ok seField =>
        match pyStrConcat seField stderr with
        | Except.error e => Except.error e
        | Except.ok se =>
          match resultGet record "locals" (Json.obj []) with
          | Except.error e => Except.error e
          | Except.ok lo =>
            Except.ok
              { stdout := so, stderr := se, locals := lo, rlm_calls := harvested }

/-! ### load_context string embedding (State Codec)

For a string payload, load_context doubles every backslash, replaces every
occurrence of three consecutive double quotes by three escaped quotes, and
splices the result into a triple-quoted assignment.  The decoding side
models how the Python tokenizer reads that assignment back: escape pairs,
termination at the first unescaped quote triple (with an adjacent empty
two-quote literal concatenated silently), and a syntax error on any other
leftover text. -/

/-- payload.replace of one backslash by two, applied to every character. -/
def replaceBackslash (s : List Char) : List Char :=
  s.flatMap (fun c => if c = '\\' then ['\\', '\\'] else [c])

/-- payload.replace of three double quotes by backslash-quote three times,
left to right and non-overlapping, as str.replace does. -/
def replaceTripleQuote : List Char → List Char
  | '"' :: '"' :: '"' :: rest =>
    '\\' :: '"' :: '\\' :: '"' :: '\\' :: '"' :: replaceTripleQuote rest
  | c :: rest => c :: replaceTripleQuote rest
  | [] => []

/-- The context assignment line generated by load_context for a string
payload. -/
def contextCode (payload : List Char) : List Char :=
  "context = \"\"\"".data ++ replaceTripleQuote (replaceBackslash payload) ++ "\"\"\"".data

/-- How Python reads the text between the opening triple quote and the end
of the generated line: a backslash escapes a following quote or backslash
(any other escape is kept verbatim, the only forms the generator emits);
an unescaped quote triple closes the literal, after which only nothing or
an adjacent empty two-quote literal (silently concatenated) parses; any
other trailing text is a syntax error, modelled as none. -/
def parseTripleQuoted : List Char → Option (List Char)
  | '"' :: '"' :: '"' :: rest =>
    if rest = [] || rest = ['"', '"'] then some [] else none
  | '\\' :: '\\' :: rest => (parseTripleQuoted rest).map (fun s => '\\' :: s)
  | '\\' :: '"' :: rest => (parseTripleQuoted rest).map (fun s => '"' :: s)
  | '\\' :: c :: rest => (parseTripleQuoted rest).map (fun s => '\\' :: c :: s)
  | c :: rest => (parseTripleQuoted rest).map (fun s => c :: s)
  | [] => none

/-- The value bound to the sandboxed context variable after executing the
generated assignment, or none when the assignment does not parse. -/
def contextValue (script : List Char) : Option (List Char) :=
  let pre := "context = \"\"\"".data
  if script.take pre.length = pre then parseTripleQuoted (script.drop pre.length)
  else none

/-! ### base64 transport of the code string (State Codec)

_build_exec_script sends the UTF-8 bytes of the code through
base64.b64encode and the script recovers them with base64.b64decode; the
model works on byte lists (each entry below 256). -/

/-- The base64 alphabet. -/
def b64chars : List Char :=
  "ABCDEFGHIJKLMNOPQRSTUVWXYZabcdefghijklmnopqrstuvwxyz0123456789+/".data

/-- The output character for one 6-bit group. -/
def b64char (n : Nat) : Char :=
  b64chars.getD n 'A'

/-- The 6-bit value of one alphabet character (0 when outside the
alphabet; encode output never hits that default). -/
def b64val (c : Char) : Nat :=
  (b64chars.indexOf? c).getD 0

/-- base64.b64encode on a byte list: three bytes become four characters;
a short final group is padded with equals signs. -/
def b64encode : List Nat → List Char
  | [] => []
  | [b1] => [b64char (b1 / 4), b64char (b1 % 4 * 16), '=', '=']
  | [b1, b2] =>
    [b64char (b1 / 4), b64char (b1 % 4 * 16 + b2 / 16), b64char (b2 % 16 * 4), '=']
  | b1 :: b2 :: b3 :: rest =>
    b64char (b1 / 4) :: b64char (b1 % 4 * 16 + b2 / 16) ::
    b64char (b2 % 16 * 4 + b3 / 64) :: b64char (b3 % 64) :: b64encode rest

/-- base64.b64decode on the encoded text: four characters back to three
bytes, with the padding cases producing one or two bytes. -/
def b64decode : List Char → List Nat
  | c1 :: c2 :: c3 :: c4 :: rest =>
    if c3 = '=' then [b64val c1 * 4 + b64val c2 / 16]
    else if c4 = '=' then
      [b64val c1 * 4 + b64val c2 / 16, b64val c2 % 16 * 16 + b64val c3 / 4]
    else
      (b64val c1 * 4 + b64val c2 / 16) ::
      (b64val c2 % 16 * 16 + b64val c3 / 4) ::
      (b64val c3 % 4 * 64 + b64val c4) :: b64decode rest
  | _ => []

/-! ## Helper lemmas about the dictionary model -/

theorem lookup_cons_self {α : Type} (k : String) (v : α) (t : List (String × α)) :
    List.lookup k ((k, v) :: t) = some v := by
  simp [List.lookup_cons]

theorem lookup_cons_ne {α : Type} {x k : String} (h : x ≠ k) (v : α)
    (t : List (String × α)) : List.lookup x ((k, v) :: t) = List.lookup x t := by
  have hb : (x == k) = false := by simp [h]
  simp [List.lookup_cons, hb]

theorem lookup_none_of_not_mem {α : Type} {x : String} {l : List (String × α)}
    (h : ¬ x ∈ l.map Prod.fst) : List.lookup x l = none := by
  rw [List.lookup_eq_none_iff]
  intro p hp
  simp only [bne_iff_ne, ne_eq]
  intro hx
  exact h (by simpa [hx] using List.mem_map_of_mem Prod.fst hp)

theorem mem_keys_of_lookup_isSome {α : Type} {x : String} {l : List (String × α)}
    (h : (List.lookup x l).isSome) : x ∈ l.map Prod.fst := by
  by_contra hmem
  rw [lookup_none_of_not_mem hmem] at h
  simp at h

theorem lookup_cons_ne2 {α : Type} {x : String} {p : String × α} (h : x ≠ p.1)
    (t : List (String × α)) : List.lookup x (p :: t) = List.lookup x t := by
  obtain ⟨a, b⟩ := p
  exact lookup_cons_ne h b t

theorem lookup_map_update {α : Type} (d : List (String × α)) (k : String) (v : α)
    (x : String) :
    List.lookup x (d.map (fun p => if p.1 = k then (k, v) else p)) =
      if x = k then (List.lookup k d).map (fun _ => v) else List.lookup x d := by
  induction d with
  | nil => by_cases h : x = k <;> simp [h]
  | cons p t ih =>
    by_cases hpk : p.1 = k
    · by_cases hxk : x = k
      · subst hxk
        simp only [List.map_cons, hpk, ite_true]
        rw [lookup_cons_self]
        have hh : List.lookup x (p :: t) = some p.2 := by
          obtain ⟨p1, p2⟩ := p
          cases hpk
          exact lookup_cons_self ..
        simp [hh]
      · have hxp : x ≠ p.1 := fun hh => hxk (hh.trans hpk)
        simp only [List.map_cons, hpk, ite_true]
        rw [lookup_cons_ne hxk, ih]
        simp [hxk, lookup_cons_ne2 hxp]
    · simp only [List.map_cons, hpk, ite_false]
      obtain ⟨p1, p2⟩ := p
      by_cases hxk : x = k
      · subst hxk
        have hxp : x ≠ p1 := fun hh => hpk hh.symm
        rw [lookup_cons_ne hxp, ih]
        simp [lookup_cons_ne hxp]
      · by_cases hxp : x = p1
        · subst hxp
          rw [lookup_cons_self]
          simp [hxk]
        · rw [lookup_cons_ne hxp, ih]
          simp [hxk, lookup_cons_ne (show x ≠ p1 from hxp)]

theorem lookup_dinsert {α : Type} (d : List (String × α)) (k : String) (v : α)
    (x : String) :
    List.lookup x (dinsert d k v) = if x = k then some v else List.lookup x d := by
  unfold dinsert
  by_cases hs : (List.lookup k d).isSome = true
  · rw [if_pos hs, lookup_map_update]
    by_cases hxk : x = k
    · obtain ⟨w, hw⟩ := Option.isSome_iff_exists.mp hs
      simp [hxk, hw]
    · simp [hxk]
  · rw [if_neg hs, List.lookup_append]
    have hnone : List.lookup k d = none := by
      rcases hh : List.lookup k d with _ | w
      · rfl
      · rw [hh] at hs; simp at hs
    by_cases hxk : x = k
    · subst hxk
      rw [hnone, lookup_cons_self]
      simp
    · rw [lookup_cons_ne hxk]
      simp [hxk]

theorem keys_dinsert_of_isSome {α : Type} (d : List (String × α)) (k : String)
    (v : α) (hs : (List.lookup k d).isSome = true) :
    (dinsert d k v).map Prod.fst = d.map Prod.fst := by
  unfold dinsert
  rw [if_pos hs, List.map_map]
  apply List.map_congr_left
  intro p _
  by_cases hpk : p.1 = k <;> simp [hpk]

theorem nodupKeys_dinsert {α : Type} {d : List (String × α)} (k : String) (v : α)
    (h : NodupKeys d) : NodupKeys (dinsert d k v) := by
  unfold NodupKeys
  by_cases hs : (List.lookup k d).isSome = true
  · rw [keys_dinsert_of_isSome d k v hs]
    exact h
  · unfold dinsert
    rw [if_neg hs, List.map_append]
    have hk : ¬ k ∈ d.map Prod.fst := fun hmem => hs (by
      by_contra hns
      have hnone : List.lookup k d = none := by
        rcases hh : List.lookup k d with _ | w
        · rfl
        · rw [hh] at hns; simp at hns
      exact absurd hnone (by
        intro hcon
        rw [List.lookup_eq_none_iff] at hcon
        obtain ⟨p, hp, hfst⟩ := List.mem_map.mp hmem
        have := hcon p hp
        rw [hfst] at this
        simp at this))
    refine List.Nodup.append h (by simp) ?_
    intro a ha hb
    simp at hb
    subst hb
    exact hk ha

theorem lookup_foldl_ins {α : Type} (cond : String → Bool)
    (C : List (String × α)) (L : List (String × α)) (hC : NodupKeys C)
    (x : String) :
    List.lookup x
        (C.foldl (fun d p => if cond p.1 then dinsert d p.1 p.2 else d) L) =
      (if cond x then List.lookup x C else none).or (List.lookup x L) := by
  induction C generalizing L with
  | nil => simp
  | cons p t ih =>
    obtain ⟨p1, p2⟩ := p
    have hC2 : NodupKeys t := (List.nodup_cons.mp hC).2
    have hpk : ¬ p1 ∈ t.map Prod.fst := (List.nodup_cons.mp hC).1
    rw [List.foldl_cons]
    by_cases hx : x = p1
    · subst hx
      have ht : List.lookup x t = none := lookup_none_of_not_mem hpk
      rw [ih _ hC2, ht, lookup_cons_self]
      by_cases hc : cond x = true
      · simp [hc, lookup_dinsert]
      · simp only [Bool.not_eq_true] at hc
        simp [hc]
    · have hL : List.lookup x (if cond p1 then dinsert L p1 p2 else L) =
          List.lookup x L := by
        split
        · rw [lookup_dinsert, if_neg hx]
        · rfl
      rw [ih _ hC2, hL, lookup_cons_ne hx]

theorem nodupKeys_foldl_ins {α : Type} (cond : String → Bool)
    (C : List (String × α)) (L : List (String × α)) (hL : NodupKeys L) :
    NodupKeys (C.foldl (fun d p => if cond p.1 then dinsert d p.1 p.2 else d) L) := by
  induction C generalizing L with
  | nil => exact hL
  | cons p t ih =>
    rw [List.foldl_cons]
    apply ih
    split
    · exact nodupKeys_dinsert p.1 p.2 hL
    · exact hL

theorem lookup_filterMap {α β : Type} (f : String × α → Option (String × β))
    (hf : ∀ p q, f p = some q → q.1 = p.1)
    (l : List (String × α)) (hl : NodupKeys l) (x : String) :
    List.lookup x (l.filterMap f) =
      (List.lookup x l).bind (fun v => (f (x, v)).map Prod.snd) := by
  induction l with
  | nil => simp
  | cons p t ih =>
    obtain ⟨k, v⟩ := p
    have ht : NodupKeys t := (List.nodup_cons.mp hl).2
    have hk : ¬ k ∈ t.map Prod.fst := (List.nodup_cons.mp hl).1
    rw [List.filterMap_cons]
    by_cases hx : x = k
    · subst hx
      rw [lookup_cons_self]
      rcases hf2 : f (x, v) with _ | q
      · have hnone : List.lookup x (t.filterMap f) = none := by
          apply lookup_none_of_not_mem
          intro hm
          obtain ⟨q, hq, hfst⟩ := List.mem_map.mp hm
          obtain ⟨p0, hp0, hfp⟩ := List.mem_filterMap.mp hq
          have hq1 := hf p0 q hfp
          exact hk (by
            rw [← hfst, hq1]
            exact List.mem_map_of_mem _ hp0)
        simp [hf2, hnone]
      · have hq1 : q.1 = x := hf _ _ hf2
        obtain ⟨q1, q2⟩ := q
        simp only at hq1
        subst hq1
        rw [lookup_cons_self]
        simp [hf2]
    · rw [lookup_cons_ne hx]
      rcases hf2 : f (k, v) with _ | q
      · exact ih ht
      · have hq1 : q.1 = k := hf _ _ hf2
        have hxq : x ≠ q.1 := by rw [hq1]; exact hx
        rw [lookup_cons_ne2 hxq, ih ht]

theorem keys_filterMap_sublist {α β : Type} (f : String × α → Option (String × β))
    (hf : ∀ p q, f p = some q → q.1 = p.1) (l : List (String × α)) :
    ((l.filterMap f).map Prod.fst).Sublist (l.map Prod.fst) := by
  induction l with
  | nil => simp
  | cons p t ih =>
    rw [List.filterMap_cons]
    rcases hf2 : f p with _ | q
    · exact ih.cons p.1
    · have hq1 : q.1 = p.1 := hf _ _ hf2
      rw [List.map_cons, List.map_cons, hq1]
      exact ih.cons₂ p.1

theorem nodupKeys_filterMap {α β : Type} (f : String × α → Option (String × β))
    (hf : ∀ p q, f p = some q → q.1 = p.1) {l : List (String × α)}
    (hl : NodupKeys l) : NodupKeys (l.filterMap f) :=
  (keys_filterMap_sublist f hf l).nodup hl

theorem lookup_map_val {α β : Type} (g : α → β) (l : List (String × α))
    (x : String) :
    List.lookup x (l.map (fun p => (p.1, g p.2))) = (List.lookup x l).map g := by
  induction l with
  | nil => simp
  | cons p t ih =>
    obtain ⟨k, v⟩ := p
    by_cases hx : x = k
    · subst hx
      simp only [List.map_cons]
      rw [lookup_cons_self, lookup_cons_self]
      rfl
    · simp only [List.map_cons]
      rw [lookup_cons_ne hx, lookup_cons_ne hx, ih]

theorem nodupKeys_map_val {α β : Type} (g : α → β) {l : List (String × α)}
    (hl : NodupKeys l) : NodupKeys (l.map (fun p => (p.1, g p.2))) := by
  unfold NodupKeys
  rw [List.map_map]
  have he : (Prod.fst ∘ fun p : String × α => (p.1, g p.2)) = Prod.fst := by
    funext p
    rfl
  rw [he]
  exact hl

/-! ## Lookup characterisations of the script operations -/

theorem lookup_copyBack (L C : PyDict) (hC : NodupKeys C) (x : String) :
    List.lookup x (copyBack L C) =
      (if copyBackCond x then List.lookup x C else none).or (List.lookup x L) := by
  unfold copyBack
  exact lookup_foldl_ins copyBackCond C L hC x

theorem nodupKeys_copyBack (L C : PyDict) (hL : NodupKeys L) :
    NodupKeys (copyBack L C) := by
  unfold copyBack
  exact nodupKeys_foldl_ins copyBackCond C L hL

theorem lookup_pyDictMerge (a b : PyDict) (hb : NodupKeys b) (x : String) :
    List.lookup x (pyDictMerge a b) = (List.lookup x b).or (List.lookup x a) := by
  have h := lookup_foldl_ins (fun _ => true) b a hb x
  have he : pyDictMerge a b =
      b.foldl (fun d p => if (fun (_ : String) => true) p.1 then dinsert d p.1 p.2 else d) a := by
    unfold pyDictMerge
    congr 1
  rw [he, h]
  simp

theorem lookup_save_state (st : PyDict) (hst : NodupKeys st) (x : String) :
    List.lookup x (save_state st) =
      match List.lookup x st with
      | none => none
      | some v =>
        if pyUnderscore x then none
        else
          match v with
          | PyVal.jval j => some j
          | v => (pyRepr v).map Json.str := by
  have hf : ∀ (p : String × PyVal) (q : String × Json),
      (if pyUnderscore p.1 then none
       else
         match p.2 with
         | PyVal.jval j => some (p.1, j)
         | v =>
           match pyRepr v with
           | some r => some (p.1, Json.str r)
           | none => none) = some q → q.1 = p.1 := by
    intro p q hq
    by_cases hu : pyUnderscore p.1
    · simp [hu] at hq
    · rcases p with ⟨k, v⟩
      simp only [hu, ite_false] at hq
      cases v with
      | jval j => cases hq; rfl
      | nonser r =>
        rcases r with _ | s
        · simp [pyRepr] at hq
        · simp [pyRepr] at hq
          cases hq
          rfl
      | cap n =>
        simp [pyRepr] at hq
        cases hq
        rfl
  have h := lookup_filterMap _ hf st hst x
  rw [show save_state st = st.filterMap _ from rfl, h]
  rcases List.lookup x st with _ | v
  · rfl
  · by_cases hu : pyUnderscore x
    · simp [hu]
    · cases v with
      | jval j => simp [hu]
      | nonser r =>
        rcases r with _ | s <;> simp [hu, pyRepr]
      | cap n => simp [hu, pyRepr]

theorem nodupKeys_save_state {st : PyDict} (hst : NodupKeys st) :
    NodupKeys (save_state st) := by
  apply nodupKeys_filterMap _ _ hst
  intro p q hq
  by_cases hu : pyUnderscore p.1
  · simp [hu] at hq
  · rcases p with ⟨k, v⟩
    simp only [hu, ite_false] at hq
    cases v with
    | jval j => cases hq; rfl
    | nonser r =>
      rcases r with _ | s
      · simp [pyRepr] at hq
      · simp [pyRepr] at hq
        cases hq
        rfl
    | cap n =>
      simp [pyRepr] at hq
      cases hq
      rfl

theorem lookup_load_state (fs : List (String × Json)) (x : String) :
    List.lookup x (load_state (some fs)) = (List.lookup x fs).map PyVal.jval :=
  lookup_map_val PyVal.jval fs x

theorem nodupKeys_load_state {fs : List (String × Json)} (hfs : NodupKeys fs) :
    NodupKeys (load_state (some fs)) :=
  nodupKeys_map_val PyVal.jval hfs

/-! ## Poller and broker bridge lemmas -/

theorem foldl_batch_step (rs : List LMResponse) (acc1 : List String)
    (acc2 : List RLMChatCompletion) :
    rs.foldl
        (fun (acc : List String × List RLMChatCompletion) (r : LMResponse) =>
          if r.success then
            (acc.1 ++ [r.chat_completion.response], acc.2 ++ [r.chat_completion])
          else
            (acc.1 ++ ["Error: " ++ r.error], acc.2))
        (acc1, acc2) =
      (acc1 ++ rs.map (fun r =>
          if r.success then r.chat_completion.response else "Error: " ++ r.error),
       acc2 ++ rs.filterMap (fun r =>
          if r.success then some r.chat_completion else none)) := by
  induction rs generalizing acc1 acc2 with
  | nil => simp
  | cons r t ih =>
    rw [List.foldl_cons]
    by_cases hr : r.success = true
    · simp [hr, ih]
    · simp only [Bool.not_eq_true] at hr
      simp [hr, ih]

theorem handleLlmRequest_pending (handler : LMHandler) (req : LMReq)
    (pending : List RLMChatCompletion) :
    (handleLlmRequest handler req pending).2 =
      pending ++ reqCompletions handler req := by
  cases req with
  | single p m =>
    unfold handleLlmRequest reqCompletions send_lm_request
    by_cases h : (handler p m).success = true
    · simp [h, handleLlmRequest, send_lm_request]
    · simp only [Bool.not_eq_true] at h
      simp [h, handleLlmRequest, send_lm_request]
  | batched ps m =>
    simp only [handleLlmRequest, reqCompletions, send_lm_request_batched]
    rw [foldl_batch_step, foldl_batch_step]
    simp
  | unknown => simp [handleLlmRequest, reqCompletions]

theorem pollWindow_eq (handler : LMHandler) (reqs : List LMReq)
    (pending : List RLMChatCompletion) :
    pollWindow handler reqs pending =
      pending ++ (reqs.map (reqCompletions handler)).flatten := by
  induction reqs generalizing pending with
  | nil => simp [pollWindow]
  | cons r t ih =>
    unfold pollWindow
    rw [List.foldl_cons]
    have h1 := handleLlmRequest_pending handler r pending
    unfold pollWindow at ih
    rw [h1, ih]
    simp

/-- C3: the completion list returned for turn T contains exactly the
completions the poller recorded between the start-of-turn clear and the
harvest: appends before the clear and after the harvest never appear, the
harvested list is exactly the in-window appends in order, and the harvest
leaves the pending list empty. -/
theorem C3_call_harvest_exact (handler : LMHandler)
    (s0 : List RLMChatCompletion) (preReqs duringReqs postReqs : List LMReq) :
    (harvestCalls (pollWindow handler duringReqs
        (clearCalls (pollWindow handler preReqs s0)))).1 =
      (duringReqs.map (reqCompletions handler)).flatten
    ∧ (harvestCalls (pollWindow handler duringReqs
        (clearCalls (pollWindow handler preReqs s0)))).2 = []
    ∧ pollWindow handler postReqs
        (harvestCalls (pollWindow handler duringReqs
          (clearCalls (pollWindow handler preReqs s0)))).2 =
      (postReqs.map (reqCompletions handler)).flatten := by
  refine ⟨?_, rfl, ?_⟩
  · show pollWindow handler duringReqs (clearCalls (pollWindow handler preReqs s0)) = _
    rw [show clearCalls (pollWindow handler preReqs s0) = [] from rfl, pollWindow_eq]
    simp
  · rw [show (harvestCalls (pollWindow handler duringReqs
        (clearCalls (pollWindow handler preReqs s0)))).2 = [] from rfl, pollWindow_eq]
    simp

/-- C5: a batched request keeps length and order end to end - element i of
the relayed response list answers prompt i, via the order-preserving
batched dispatch and the per-element append loop of _handle_llm_request -
and every failure mode of the in-sandbox batched bridge call (broker not
configured, transport failure, broker-reported error) produces one
error-prefixed placeholder per input prompt rather than a single aggregate
failure value. -/
theorem C5_batched_contract :
    (∀ (ps : List String) (post : BrokerPost),
        llm_query_batched none ps post =
          Json.arr (List.replicate ps.length
            (Json.str "Error: LLM broker not configured")))
    ∧ (∀ (u : String) (ps : List String) (e : String),
        llm_query_batched (some u) ps (BrokerPost.transportFail e) =
          Json.arr (List.replicate ps.length
            (Json.str ("Error: LM query failed - " ++ e))))
    ∧ (∀ (u : String) (ps : List String) (emsg : String), emsg ≠ "" →
        llm_query_batched (some u) ps
            (BrokerPost.reply (Json.obj [("error", Json.str emsg)])) =
          Json.arr (List.replicate ps.length (Json.str ("Error: " ++ emsg))))
    ∧ (∀ (handler : LMHandler) (u : String) (ps : List String)
          (m : Option String) (pending : List RLMChatCompletion),
        llm_query_batched (some u) ps
            (BrokerPost.reply (brokerRelay
              (handleLlmRequest handler (LMReq.batched ps m) pending).1)) =
          Json.arr (ps.map (fun p =>
            Json.str (if (handler p m).success then
                        (handler p m).chat_completion.response
                      else "Error: " ++ (handler p m).error)))) := by
  refine ⟨fun ps post => rfl, fun u ps e => rfl, ?_, ?_⟩
  · intro u ps emsg he
    have ht : jsonTruthy (Json.str emsg) = true := by
      unfold jsonTruthy
      simp [he]
    simp [llm_query_batched, jsonGetTruthy, jsonGet, ht, pyStr]
  · intro handler u ps m pending
    simp only [handleLlmRequest, send_lm_request_batched]
    rw [foldl_batch_step]
    unfold brokerRelay llm_query_batched
    simp [jsonGetTruthy, jsonGet, List.map_map]
    rfl


/-- C5 witness: a broker-reported error for a two-prompt batch yields one
error-prefixed placeholder per prompt. -/
theorem C5_witness :
    llm_query_batched (some "http://broker") ["p0", "p1"]
        (BrokerPost.reply (Json.obj [("error", Json.str "boom")])) =
      Json.arr (List.replicate (["p0", "p1"] : List String).length
        (Json.str ("Error: " ++ "boom"))) :=
  C5_batched_contract.2.2.1 "http://broker" ["p0", "p1"] "boom" (by decide)

/-- The session configuration of the C9 counterexample: a broker endpoint
is configured but no model-call handler address is. -/
def c9Config : SessionConfig :=
  { brokerUrl := some "http://broker", lmHandlerAddress := none }

/-- C9 counterexample: with a broker endpoint configured but no handler
address, the poller is not started, yet the generated script still bakes
in the broker url, so an in-sandbox bridge call attempts the request and
surfaces its outcome (here a transport failure) instead of returning the
fail-closed not-configured error value the claim promises. -/
theorem C9_counterexample :
    pollerStarted c9Config = false
    ∧ scriptBrokerUrl c9Config = some "http://broker"
    ∧ llm_query (scriptBrokerUrl c9Config) (BrokerPost.transportFail "timeout") =
        Json.str ("Error: LM query failed - timeout")
    ∧ Json.str ("Error: LM query failed - timeout") ≠
        Json.str "Error: LLM broker not configured" := by
  refine ⟨rfl, rfl, rfl, ?_⟩
  intro h
  injection h with h2
  exact absurd h2 (by decide)

/-- C9 amended: the poller starts exactly when both a truthy broker url
and a handler address are configured; the bridge fails closed with the
not-configured error exactly when the broker url is not truthy (then the
script bakes in BROKER_URL = None and the poller is off); a configured
broker url with a missing handler address leaves the poller off while the
bridge still attempts its request. -/
theorem C9_fail_closed (c : SessionConfig) :
    (pollerStarted c = (truthyBrokerUrl c && c.lmHandlerAddress.isSome))
    ∧ (truthyBrokerUrl c = false →
        pollerStarted c = false
        ∧ scriptBrokerUrl c = none
        ∧ (∀ post, llm_query (scriptBrokerUrl c) post =
            Json.str "Error: LLM broker not configured")
        ∧ (∀ (ps : List String) post,
            llm_query_batched (scriptBrokerUrl c) ps post =
              Json.arr (List.replicate ps.length
                (Json.str "Error: LLM broker not configured"))))
    ∧ (c.lmHandlerAddress = none → pollerStarted c = false) := by
  refine ⟨rfl, ?_, ?_⟩
  · intro hb
    have hs : scriptBrokerUrl c = none := by
      unfold scriptBrokerUrl
      unfold truthyBrokerUrl at hb
      rcases hc : c.brokerUrl with _ | s
      · rfl
      · rw [hc] at hb
        simp only [Bool.not_eq_true'] at hb
        simp at hb
        simp [hb]
    refine ⟨?_, hs, ?_, ?_⟩
    · unfold pollerStarted
      rw [hb]
      rfl
    · intro post
      rw [hs]
      rfl
    · intro ps post
      rw [hs]
      rfl
  · intro hn
    unfold pollerStarted
    rw [hn]
    simp

/-- C9 witness: a wholly unconfigured session fails closed on both bridge
calls and never starts the poller. -/
theorem C9_witness :
    llm_query (scriptBrokerUrl { brokerUrl := none, lmHandlerAddress := none })
        (BrokerPost.transportFail "net down") =
      Json.str "Error: LLM broker not configured" :=
  ((C9_fail_closed { brokerUrl := none, lmHandlerAddress := none }).2.1
    (by rfl)).2.2.1 (BrokerPost.transportFail "net down")

/-! ## State continuity, failure turns, FINAL_VAR, save_state -/

/-- The post-exec combined namespace of the C1 counterexample turn: the
executed code rebound the injected capability name llm_query to a
JSON-serializable value. -/
def c1Final : PyDict :=
  dinsert (combinedNamespace []) "llm_query" (PyVal.jval (Json.num 5))

/-- C1 counterexample: llm_query does not start with an underscore and the
turn bound it to the serializable value 5, yet the copy-back loop skips
every key of the injected globals, so the next turn sees the capability
function again, not the bound value - the claim fails for bindings that
shadow an injected global name. -/
theorem C1_counterexample :
    List.lookup "llm_query" c1Final = some (PyVal.jval (Json.num 5))
    ∧ pyUnderscore "llm_query" = false
    ∧ jsonSerializable (PyVal.jval (Json.num 5)) = true
    ∧ List.lookup "llm_query"
        (nextTurnNamespace
          (runScriptTurn [] "" "" (ExecOutcome.ok c1Final)).2) =
        some (PyVal.cap "llm_query")
    ∧ PyVal.cap "llm_query" ≠ PyVal.jval (Json.num 5) := by
  refine ⟨rfl, rfl, rfl, rfl, ?_⟩
  intro h
  cases h

/-- C1 amended: a binding of a non-underscore name that is also not one of
the injected global names, carrying a JSON-representable value, survives
the save/load/merge pipeline: it is copied back into _locals, kept
verbatim by save_state, reproduced by load_state, and wins the merge into
the injected globals at the start of the next turn. -/
theorem C1_persistence (prior finalNs : PyDict) (x : String) (j : Json)
    (hp : NodupKeys prior) (hf : NodupKeys finalNs)
    (hb : List.lookup x finalNs = some (PyVal.jval j))
    (hg : List.lookup x injectedGlobals = none)
    (hu : pyUnderscore x = false) (codeOut codeErr : String) :
    List.lookup x
        (nextTurnNamespace
          (runScriptTurn prior codeOut codeErr (ExecOutcome.ok finalNs)).2) =
      some (PyVal.jval j) := by
  have hcond : copyBackCond x = true := by
    unfold copyBackCond
    simp [hg, hu]
  have h1 : List.lookup x (copyBack prior finalNs) = some (PyVal.jval j) := by
    rw [lookup_copyBack prior finalNs hf x, hcond]
    simp [hb]
  have hnd1 : NodupKeys (copyBack prior finalNs) := nodupKeys_copyBack _ _ hp
  have h2 : List.lookup x (save_state (copyBack prior finalNs)) = some j := by
    rw [lookup_save_state _ hnd1 x, h1]
    simp [hu]
  have hnd2 : NodupKeys (save_state (copyBack prior finalNs)) :=
    nodupKeys_save_state hnd1
  have h3 : List.lookup x
      (load_state (some (save_state (copyBack prior finalNs)))) =
      some (PyVal.jval j) := by
    rw [lookup_load_state, h2]
    rfl
  have hnd3 : NodupKeys (load_state (some (save_state (copyBack prior finalNs)))) :=
    nodupKeys_load_state hnd2
  show List.lookup x (pyDictMerge injectedGlobals
      (load_state (some (save_state (copyBack prior finalNs))))) = _
  rw [lookup_pyDictMerge _ _ hnd3, h3]
  rfl

/-- C1 witness: x bound to 2 in one turn is looked up with value 2 in the
next turn's namespace. -/
theorem C1_witness :
    List.lookup "x"
        (nextTurnNamespace
          (runScriptTurn [] "" ""
            (ExecOutcome.ok (dinsert (combinedNamespace []) "x"
              (PyVal.jval (Json.num 2))))).2) =
      some (PyVal.jval (Json.num 2)) :=
  C1_persistence [] (dinsert (combinedNamespace []) "x" (PyVal.jval (Json.num 2)))
    "x" (Json.num 2) (by decide) (by decide) (by rfl) (by rfl) (by rfl) "" ""

/-- The namespace at the failure point of the C2 counterexample turn: the
code bound a to 1 and then raised. -/
def c2FailureNs : PyDict :=
  dinsert (combinedNamespace []) "a" (PyVal.jval (Json.num 1))

/-- C2 counterexample: the binding a = 1 exists in the execution namespace
at the failure point, is serializable and not underscore-prefixed, yet the
state file written after the failure does not contain it - the copy-back
loop sits after exec inside the try block, so a raising turn persists only
the prior _locals. -/
theorem C2_counterexample :
    List.lookup "a" c2FailureNs = some (PyVal.jval (Json.num 1))
    ∧ pyUnderscore "a" = false
    ∧ (runScriptTurn [] "" "" (ExecOutcome.raised "Traceback" c2FailureNs)).1.stderr =
        "Traceback"
    ∧ List.lookup "a"
        (runScriptTurn [] "" "" (ExecOutcome.raised "Traceback" c2FailureNs)).2 =
        none := by
  exact ⟨rfl, rfl, rfl, rfl⟩

/-- C2 amended: when exec raises, the traceback is appended to the stderr
buffer, the turn still completes and writes a state file, and that file is
save_state of the locals loaded at the start of the turn - prior
non-underscore serializable bindings persist, while bindings newly created
by the failing code are discarded because the copy-back loop runs only on
success. -/
theorem C2_failure_turn (prior failNs : PyDict) (tb codeOut codeErr : String)
    (hp : NodupKeys prior) :
    (runScriptTurn prior codeOut codeErr (ExecOutcome.raised tb failNs)).1.stderr =
        codeErr ++ tb
    ∧ (runScriptTurn prior codeOut codeErr (ExecOutcome.raised tb failNs)).2 =
        save_state prior
    ∧ (∀ (x : String) (j : Json), List.lookup x prior = some (PyVal.jval j) →
        pyUnderscore x = false →
        List.lookup x
            (runScriptTurn prior codeOut codeErr (ExecOutcome.raised tb failNs)).2 =
          some j) := by
  refine ⟨rfl, rfl, ?_⟩
  intro x j hx hu
  show List.lookup x (save_state prior) = some j
  rw [lookup_save_state _ hp, hx]
  simp [hu]

/-- C2 witness: a prior binding survives a raising turn whose new binding
is dropped. -/
theorem C2_witness :
    List.lookup "y"
        (runScriptTurn [("y", PyVal.jval (Json.num 7))] "" ""
          (ExecOutcome.raised "tb" c2FailureNs)).2 =
      some (Json.num 7) :=
  (C2_failure_turn [("y", PyVal.jval (Json.num 7))] c2FailureNs "tb" "" ""
    (by decide)).2.2 "y" (Json.num 7) (by rfl) (by rfl)

/-- C7 counterexample: with an empty persisted state, the executed code
has just bound x = 1 in the combined namespace, but FINAL_VAR closes over
the _locals dictionary loaded at the start of the turn, so it reports the
not-found marker instead of the printable value of the same-turn
binding. -/
theorem C7_counterexample :
    List.lookup "x" (dinsert (combinedNamespace (load_state none)) "x"
        (PyVal.jval (Json.num 1))) =
      some (PyVal.jval (Json.num 1))
    ∧ FINAL_VAR (load_state none) "x" = finalVarNotFound "x"
    ∧ finalVarNotFound "x" ≠ pyStr (PyVal.jval (Json.num 1)) := by
  refine ⟨rfl, rfl, ?_⟩
  decide

/-- C7 amended: FINAL_VAR strips whitespace and quotes from its argument
and resolves the name against the persisted state loaded at the start of
the turn: present names yield their str() rendering, absent names -
including names bound only earlier in the same turn - yield the explicit
not-found marker. -/
theorem C7_final_var (locals : PyDict) (raw : String) :
    (∀ v, List.lookup (finalVarName raw) locals = some v →
        FINAL_VAR locals raw = pyStr v)
    ∧ (List.lookup (finalVarName raw) locals = none →
        FINAL_VAR locals raw = finalVarNotFound (finalVarName raw)) := by
  constructor
  · intro v hv
    simp only [FINAL_VAR, hv]
  · intro hn
    simp only [FINAL_VAR, hn]

/-- C7 witness: a quoted identifier resolves to the str() of the persisted
binding. -/
theorem C7_witness :
    FINAL_VAR [("ans", PyVal.jval (Json.str "42"))]
        (" " ++ squoteStr ++ "ans" ++ squoteStr) = "42" :=
  (C7_final_var [("ans", PyVal.jval (Json.str "42"))]
      (" " ++ squoteStr ++ "ans" ++ squoteStr)).1
    (PyVal.jval (Json.str "42")) (by rfl)

/-- The state dictionary of the C8 witness: a serializable value, an
unserializable value with a working repr, an unserializable value whose
repr also fails, and an underscore-prefixed entry. -/
def c8State : PyDict :=
  [("a", PyVal.jval (Json.num 1)),
   ("b", PyVal.nonser (some "B")),
   ("c", PyVal.nonser none),
   ("_d", PyVal.jval Json.null)]

/-- C8: save_state is total and its output is characterised entry by
entry: underscore keys are dropped, values passing the json.dumps test are
kept verbatim, other values fall back to their printable representation
string, and entries whose repr also fails are dropped; every surviving
entry keys a JSON value (the file is a well-formed JSON object by
construction) under a non-underscore name. -/
theorem C8_save_state (st : PyDict) (hst : NodupKeys st) (x : String) :
    (List.lookup x (save_state st) =
      match List.lookup x st with
      | none => none
      | some v =>
        if pyUnderscore x then none
        else
          match v with
          | PyVal.jval j => some j
          | v => (pyRepr v).map Json.str)
    ∧ (∀ p ∈ save_state st, pyUnderscore p.1 = false) := by
  refine ⟨lookup_save_state st hst x, ?_⟩
  intro p hp
  obtain ⟨p0, hp0, hf⟩ := List.mem_filterMap.mp hp
  by_cases hu : pyUnderscore p0.1
  · simp [hu] at hf
  · have hkey : p.1 = p0.1 := by
      rcases p0 with ⟨k, v⟩
      simp only [hu, ite_false] at hf
      cases v with
      | jval j => cases hf; rfl
      | nonser r =>
        rcases r with _ | sr
        · simp [pyRepr] at hf
        · simp [pyRepr] at hf
          cases hf
          rfl
      | cap n =>
        simp [pyRepr] at hf
        cases hf
        rfl
    rw [hkey]
    simp only [Bool.not_eq_true] at hu
    exact hu

/-- C8 witness: the fallback entry b persists as its repr string while the
serializable entry survives verbatim, evaluated through the
characterisation theorem. -/
theorem C8_witness :
    List.lookup "b" (save_state c8State) = some (Json.str "B") := by
  have h := (C8_save_state c8State (by decide) "b").1
  rw [h]
  rfl

/-! ## execute_code result parsing and base64 transport -/

/-- C4 counterexample: a remote execution whose captured stdout is the
single line null parses as valid JSON that is not an object, so the
result.get call raises an AttributeError that is not caught (only
json.JSONDecodeError is), and execute_code raises after all. -/
theorem C4_counterexample :
    executeCodeResult (ExecResponse.ok "null" "") [] =
      Except.error PyErr.attributeError := by
  rfl

/-- C4 amended: whenever the last line of captured stdout is missing or
malformed JSON, execute_code returns normally with the raw captured stdout
and stderr, substituting the diagnostic note for stderr exactly when
stderr is empty; in particular a transport failure of the exec call yields
empty stdout and the diagnostic stderr; a last line that parses as valid
non-object JSON, however, raises. -/
theorem C4_parse_fallback :
    (∀ (resp : ExecResponse) (calls : List RLMChatCompletion),
        jsonParse (pyLastLine (execStdout resp)) = none →
          executeCodeResult resp calls =
            Except.ok
              { stdout := Json.str (execStdout resp),
                stderr := if execStderr resp = "" then
                            "Failed to parse execution result"
                          else execStderr resp,
                locals := Json.obj [], rlm_calls := calls })
    ∧ (∀ (msg : String) (calls : List RLMChatCompletion),
        executeCodeResult (ExecResponse.transportError msg) calls =
          Except.ok
            { stdout := Json.str "", stderr := "Failed to parse execution result",
              locals := Json.obj [], rlm_calls := calls }) := by
  constructor
  · intro resp calls h
    simp only [executeCodeResult, h]
  · intro msg calls
    rfl

/-- C4 witness: a malformed last line with non-empty captured stderr falls
back to the raw streams without the diagnostic note. -/
theorem C4_witness :
    executeCodeResult (ExecResponse.ok "not valid json" "boom") [] =
      Except.ok
        { stdout := Json.str "not valid json", stderr := "boom",
          locals := Json.obj [], rlm_calls := [] } := by
  have h := C4_parse_fallback.1 (ExecResponse.ok "not valid json" "boom") []
    (by rfl)
  simpa using h

/-! ## base64 round trip -/

theorem b64_roundval : ∀ n < 64, b64val (b64char n) = n := by
  decide

theorem b64char_ne_pad : ∀ n < 64, b64char n ≠ '=' := by
  decide

theorem b64char_safe : ∀ n : Nat, b64char n ≠ '"' ∧ b64char n ≠ '\\' := by
  intro n
  by_cases h : n < 64
  · exact (show ∀ m < 64, b64char m ≠ '"' ∧ b64char m ≠ '\\' by decide) n h
  · have hd : b64char n = 'A' := by
      unfold b64char
      rw [List.getD_eq_default]
      simp only [Nat.not_lt] at h
      calc b64chars.length = 64 := by decide
      _ ≤ n := h
    rw [hd]
    decide

theorem b64encode_safe : ∀ (bs : List Nat), ∀ c ∈ b64encode bs, c ≠ '"' ∧ c ≠ '\\'
  | [] => by simp [b64encode]
  | [b1] => by
    intro c hc
    simp only [b64encode, List.mem_cons, List.not_mem_nil, or_false] at hc
    rcases hc with h | h | h | h <;> subst h
    · exact b64char_safe _
    · exact b64char_safe _
    · decide
    · decide
  | [b1, b2] => by
    intro c hc
    simp only [b64encode, List.mem_cons, List.not_mem_nil, or_false] at hc
    rcases hc with h | h | h | h <;> subst h
    · exact b64char_safe _
    · exact b64char_safe _
    · exact b64char_safe _
    · decide
  | b1 :: b2 :: b3 :: rest => by
    intro c hc
    simp only [b64encode, List.mem_cons] at hc
    rcases hc with h | h | h | h | h
    · subst h; exact b64char_safe _
    · subst h; exact b64char_safe _
    · subst h; exact b64char_safe _
    · subst h; exact b64char_safe _
    · exact b64encode_safe rest c h

theorem b64_roundtrip : ∀ (bs : List Nat), (∀ b ∈ bs, b < 256) →
    b64decode (b64encode bs) = bs
  | [], _ => rfl
  | [b1], h => by
    have hb1 : b1 < 256 := h b1 (by simp)
    have e1 := b64_roundval (b1 / 4) (by omega)
    have e2 := b64_roundval (b1 % 4 * 16) (by omega)
    simp only [b64encode, b64decode, List.cons.injEq, and_true, if_pos]
    rw [e1, e2]
    omega
  | [b1, b2], h => by
    have hb1 : b1 < 256 := h b1 (by simp)
    have hb2 : b2 < 256 := h b2 (by simp)
    have e1 := b64_roundval (b1 / 4) (by omega)
    have e2 := b64_roundval (b1 % 4 * 16 + b2 / 16) (by omega)
    have e3 := b64_roundval (b2 % 16 * 4) (by omega)
    have ne3 := b64char_ne_pad (b2 % 16 * 4) (by omega)
    simp only [b64encode, b64decode, if_neg ne3, if_pos, List.cons.injEq, and_true]
    rw [e1, e2, e3]
    constructor <;> omega
  | b1 :: b2 :: b3 :: rest, h => by
    have hb1 : b1 < 256 := h b1 (by simp)
    have hb2 : b2 < 256 := h b2 (by simp)
    have hb3 : b3 < 256 := h b3 (by simp)
    have e1 := b64_roundval (b1 / 4) (by omega)
    have e2 := b64_roundval (b1 % 4 * 16 + b2 / 16) (by omega)
    have e3 := b64_roundval (b2 % 16 * 4 + b3 / 64) (by omega)
    have e4 := b64_roundval (b3 % 64) (by omega)
    have ne3 := b64char_ne_pad (b2 % 16 * 4 + b3 / 64) (by omega)
    have ne4 := b64char_ne_pad (b3 % 64) (by omega)
    have ih := b64_roundtrip rest (fun b hb => h b (by simp [hb]))
    simp only [b64encode, b64decode, if_neg ne3, if_neg ne4, List.cons.injEq]
    rw [e1, e2, e3, e4]
    refine ⟨by omega, by omega, by omega, ih⟩

/-- C6: the base64 transport of the code bytes is lossless - decode after
encode is the identity on byte lists - and every character of the encoded
text is safe to splice into the double-quoted literal of the generated
script (never a double quote or a backslash). -/
theorem C6_code_transport (bs : List Nat) (h : ∀ b ∈ bs, b < 256) :
    b64decode (b64encode bs) = bs
    ∧ ∀ c ∈ b64encode bs, c ≠ '"' ∧ c ≠ '\\' :=
  ⟨b64_roundtrip bs h, b64encode_safe bs⟩

/-- C6 witness: the UTF-8 bytes of a snippet containing a double quote, a
backslash, a newline and a two-byte character round-trip exactly. -/
theorem C6_witness :
    b64decode (b64encode [34, 92, 10, 195, 169]) = [34, 92, 10, 195, 169] :=
  (C6_code_transport [34, 92, 10, 195, 169] (by decide)).1

/-! ## Context literal embedding -/

theorem rb_cons (c : Char) (t : List Char) :
    replaceBackslash (c :: t) =
      (if c = '\\' then ['\\', '\\'] else [c]) ++ replaceBackslash t := by
  simp [replaceBackslash]

theorem rtq_triple (rest : List Char) :
    replaceTripleQuote ('"' :: '"' :: '"' :: rest) =
      '\\' :: '"' :: '\\' :: '"' :: '\\' :: '"' :: replaceTripleQuote rest := rfl

theorem rtq_cons_ne (c : Char) (xs : List Char) (hc : c ≠ '"') :
    replaceTripleQuote (c :: xs) = c :: replaceTripleQuote xs := by
  rw [replaceTripleQuote.eq_def]
  split
  · next rest heq =>
    injection heq with h1 _
    exact absurd h1 hc
  · next c2 rest heq =>
    injection heq with h1 h2
    rw [h1, h2]
  · next heq =>
    cases heq

theorem rtq_one_quote (e : Char) (ys : List Char) (he : e ≠ '"') :
    replaceTripleQuote ('"' :: e :: ys) = '"' :: replaceTripleQuote (e :: ys) := by
  rw [replaceTripleQuote.eq_def]
  split
  · next rest heq =>
    injection heq with _ h2
    injection h2 with h3 _
    exact absurd h3 he
  · next c2 rest heq =>
    injection heq with h1 h2
    rw [h1, h2]
  · next heq =>
    cases heq

theorem rtq_two (e : Char) (ys : List Char) (he : e ≠ '"') :
    replaceTripleQuote ('"' :: '"' :: e :: ys) =
      '"' :: '"' :: replaceTripleQuote (e :: ys) := by
  rw [replaceTripleQuote.eq_def]
  split
  · next rest heq =>
    injection heq with _ h2
    injection h2 with _ h3
    injection h3 with h4 _
    exact absurd h4 he
  · next c2 rest heq =>
    injection heq with h1 h2
    rw [← h1, ← h2, rtq_one_quote e ys he]
  · next heq =>
    cases heq

theorem ptq_close (rest : List Char) :
    parseTripleQuoted ('"' :: '"' :: '"' :: rest) =
      if rest = [] || rest = ['"', '"'] then some [] else none := rfl

theorem ptq_bb (rest : List Char) :
    parseTripleQuoted ('\\' :: '\\' :: rest) =
      (parseTripleQuoted rest).map (fun s => '\\' :: s) := rfl

theorem ptq_bq (rest : List Char) :
    parseTripleQuoted ('\\' :: '"' :: rest) =
      (parseTripleQuoted rest).map (fun s => '"' :: s) := rfl

theorem ptq_cons_ne (c : Char) (xs : List Char) (hq : c ≠ '"') (hb : c ≠ '\\') :
    parseTripleQuoted (c :: xs) = (parseTripleQuoted xs).map (fun s => c :: s) := by
  rw [parseTripleQuoted.eq_def]
  split
  · next rest heq =>
    injection heq with h1 _
    exact absurd h1 hq
  · next rest heq =>
    injection heq with h1 _
    exact absurd h1 hb
  · next rest heq =>
    injection heq with h1 _
    exact absurd h1 hb
  · next c2 rest heq =>
    injection heq with h1 _
    exact absurd h1 hb
  · next c2 rest heq =>
    injection heq with h1 h2
    rw [h1, h2]
  · next heq =>
    cases heq

theorem ptq_one_quote (e : Char) (ys : List Char) (he : e ≠ '"') :
    parseTripleQuoted ('"' :: e :: ys) =
      (parseTripleQuoted (e :: ys)).map (fun s => '"' :: s) := by
  rw [parseTripleQuoted.eq_def]
  split
  · next rest heq =>
    injection heq with _ h2
    injection h2 with h3 _
    exact absurd h3 he
  · next rest heq =>
    injection heq with h1 _
    exact absurd h1 (by decide)
  · next rest heq =>
    injection heq with h1 _
    exact absurd h1 (by decide)
  · next c2 rest heq =>
    injection heq with h1 _
    exact absurd h1 (by decide)
  · next c2 rest heq =>
    injection heq with h1 h2
    rw [h1, h2]
  · next heq =>
    cases heq

theorem ptq_qq (e : Char) (ys : List Char) (he : e ≠ '"') :
    parseTripleQuoted ('"' :: '"' :: e :: ys) =
      (parseTripleQuoted ('"' :: e :: ys)).map (fun s => '"' :: s) := by
  rw [parseTripleQuoted.eq_def]
  split
  · next rest heq =>
    injection heq with _ h2
    injection h2 with _ h3
    injection h3 with h4 _
    exact absurd h4 he
  · next rest heq =>
    injection heq with h1 _
    exact absurd h1 (by decide)
  · next rest heq =>
    injection heq with h1 _
    exact absurd h1 (by decide)
  · next c2 rest heq =>
    injection heq with h1 _
    exact absurd h1 (by decide)
  · next c2 rest heq =>
    injection heq with h1 h2
    rw [← h1, ← h2]
  · next heq =>
    cases heq

/-- The escaped payload followed by the closing triple quote reads back as
exactly the original payload, for every payload that does not end in a
double quote (a trailing quote run whose length is not a multiple of three
leaves an unescaped quote against the closing delimiter, which either
fails to parse or silently concatenates an adjacent empty literal). -/
theorem parse_context_esc (p : List Char) (hlast : p.getLast? ≠ some '"') :
    parseTripleQuoted
        (replaceTripleQuote (replaceBackslash p) ++ ['"', '"', '"']) = some p := by
  suffices H : ∀ (n : Nat) (q : List Char), q.length ≤ n → q.getLast? ≠ some '"' →
      parseTripleQuoted
        (replaceTripleQuote (replaceBackslash q) ++ ['"', '"', '"']) = some q from
    H p.length p le_rfl hlast
  intro n
  induction n with
  | zero =>
    intro q hq _
    have hq0 : q = [] := by
      cases q with
      | nil => rfl
      | cons c t => simp at hq
    subst hq0
    rfl
  | succ n ih =>
    intro q hq hl
    rcases q with _ | ⟨c1, p1⟩
    · rfl
    by_cases hc1q : c1 = '"'
    · subst hc1q
      rcases p1 with _ | ⟨c2, p2⟩
      · simp at hl
      by_cases hc2q : c2 = '"'
      · subst hc2q
        rcases p2 with _ | ⟨c3, p3⟩
        · simp at hl
        by_cases hc3q : c3 = '"'
        · subst hc3q
          have hp3ne : p3 ≠ [] := by
            intro h0
            subst h0
            simp at hl
          have hl3 : p3.getLast? ≠ some '"' := by
            rcases p3 with _ | ⟨d, t⟩
            · exact absurd rfl hp3ne
            · simpa [List.getLast?_cons_cons] using hl
          have hlen : p3.length ≤ n := by
            simp only [List.length_cons] at hq
            omega
          have ihp := ih p3 hlen hl3
          rw [rb_cons, rb_cons, rb_cons, if_neg (by decide : ¬ ('"' : Char) = '\\')]
          simp only [List.singleton_append, List.cons_append, List.nil_append]
          rw [rtq_triple]
          simp only [List.cons_append]
          rw [ptq_bq, ptq_bq, ptq_bq, ihp]
          rfl
        · have hl1 : (c3 :: p3).getLast? ≠ some '"' := by
            simpa [List.getLast?_cons_cons] using hl
          have hlen : (c3 :: p3).length ≤ n := by
            simp only [List.length_cons] at hq ⊢
            omega
          have ihp := ih (c3 :: p3) hlen hl1
          obtain ⟨e, ys, hrb, he⟩ :
              ∃ e ys, replaceBackslash (c3 :: p3) = e :: ys ∧ e ≠ '"' := by
            by_cases hb : c3 = '\\'
            · exact ⟨'\\', '\\' :: replaceBackslash p3,
                by rw [rb_cons, if_pos hb]; rfl, by decide⟩
            · exact ⟨c3, replaceBackslash p3,
                by rw [rb_cons, if_neg hb]; rfl, hc3q⟩
          rw [rb_cons, rb_cons, if_neg (by decide : ¬ ('"' : Char) = '\\')]
          simp only [List.singleton_append, List.cons_append, List.nil_append]
          rw [hrb, rtq_two e ys he, rtq_cons_ne e ys he]
          simp only [List.cons_append]
          rw [ptq_qq e _ he, ptq_one_quote e _ he]
          rw [hrb, rtq_cons_ne e ys he, List.cons_append] at ihp
          rw [ihp]
          rfl
      · have hl1 : (c2 :: p2).getLast? ≠ some '"' := by
          simpa [List.getLast?_cons_cons] using hl
        have hlen : (c2 :: p2).length ≤ n := by
          simp only [List.length_cons] at hq ⊢
          omega
        have ihp := ih (c2 :: p2) hlen hl1
        obtain ⟨e, ys, hrb, he⟩ :
            ∃ e ys, replaceBackslash (c2 :: p2) = e :: ys ∧ e ≠ '"' := by
          by_cases hb : c2 = '\\'
          · exact ⟨'\\', '\\' :: replaceBackslash p2,
              by rw [rb_cons, if_pos hb]; rfl, by decide⟩
          · exact ⟨c2, replaceBackslash p2,
              by rw [rb_cons, if_neg hb]; rfl, hc2q⟩
        rw [rb_cons, if_neg (by decide : ¬ ('"' : Char) = '\\')]
        simp only [List.singleton_append, List.cons_append, List.nil_append]
        rw [hrb, rtq_one_quote e ys he, rtq_cons_ne e ys he]
        simp only [List.cons_append]
        rw [ptq_one_quote e _ he]
        rw [hrb, rtq_cons_ne e ys he, List.cons_append] at ihp
        rw [ihp]
        rfl
    · have hl1 : p1.getLast? ≠ some '"' := by
        rcases p1 with _ | ⟨d, t⟩
        · simp
        · simpa [List.getLast?_cons_cons] using hl
      have hlen : p1.length ≤ n := by
        simp only [List.length_cons] at hq
        omega
      have ihp := ih p1 hlen hl1
      by_cases hc1b : c1 = '\\'
      · subst hc1b
        rw [rb_cons, if_pos rfl]
        simp only [List.cons_append, List.nil_append]
        rw [rtq_cons_ne _ _ (by decide), rtq_cons_ne _ _ (by decide)]
        simp only [List.cons_append]
        rw [ptq_bb, ihp]
        rfl
      · rw [rb_cons, if_neg hc1b]
        simp only [List.singleton_append, List.cons_append, List.nil_append]
        rw [rtq_cons_ne c1 _ hc1q]
        simp only [List.cons_append]
        rw [ptq_cons_ne c1 _ hc1q hc1b, ihp]
        rfl

/-- C10 counterexample: the payload ab followed by one double quote is not
reproduced - the escaping leaves a lone quote against the closing triple
quote, producing a malformed literal (a SyntaxError at sandbox runtime),
so the context variable never holds the original string. -/
theorem C10_counterexample :
    contextValue (contextCode ("ab\"".data)) = none
    ∧ contextValue (contextCode ("ab\"".data)) ≠ some ("ab\"".data) := by
  constructor
  · decide
  · decide

/-- C10 amended: load_context doubles backslashes and escapes exact
triple-quote runs, and for every string payload that does not end in a
double-quote character the generated assignment binds context to the
original string exactly - in particular the hello-triple-quote-world
example round-trips; payloads ending in a double quote can instead produce
a malformed or silently truncated literal. -/
theorem C10_context_roundtrip (p : List Char) (h : p.getLast? ≠ some '"') :
    contextValue (contextCode p) = some p := by
  unfold contextValue contextCode
  have hpre : ("context = \"\"\"".data ++
      replaceTripleQuote (replaceBackslash p) ++ "\"\"\"".data).take
        ("context = \"\"\"".data).length = "context = \"\"\"".data := by
    rw [List.append_assoc]
    exact List.take_left ..
  rw [if_pos hpre, List.append_assoc, List.drop_left]
  have hclose : ("\"\"\"".data : List Char) = ['"', '"', '"'] := by decide
  rw [hclose]
  exact parse_context_esc p h

/-- C10 witness: the spec example payload containing a literal triple
quote round-trips through the generated assignment unchanged. -/
theorem C10_witness :
    contextValue (contextCode ("hello \"\"\" world".data)) =
      some ("hello \"\"\" world".data) :=
  C10_context_roundtrip ("hello \"\"\" world".data) (by decide)

end RLM
